import Mathlib

/-!
Shallow embedding of `instapaper_to_sqlite/cli.py` and proofs about it.

The embedding covers the pieces the specification talks about:
the timestamp coercion `isoDateToTimestap` used by the `get_text` command,
the text-backfill loop of `get_text` (working-set query, per-item fetch,
per-item insert into `bookmark_text`), the `bookmarks` sync command
(projection onto `BOOKMARK_KEYS`, folder tagging, `upsert_all` keyed on
`bookmark_id`), and the credential-loading prologue shared by both
commands.
-/

set_option autoImplicit false

namespace InstapaperToSqlite

/-! ## Timestamp coercion

`cli.py` builds `isoDateToTimestap = lambda x : datetime.strptime(x,
"%Y-%m-%dT%H:%M:%S").timestamp()`.  We embed CPython's `_strptime`
field patterns for the six directives used by that format string
(`%Y` is exactly four digits; `%m` matches `1[0-2]|0[1-9]|[1-9]`;
`%d` matches `3[01]|[12]\d|0[1-9]|[1-9]`; `%H` matches
`2[0-3]|[0-1]\d|\d`; `%M` matches `[0-5]\d|\d`; `%S` matches
`6[0-1]|[0-5]\d|\d`), the literal separators, the full-match check,
and the `datetime` constructor's range validation.  `timestamp()` on a
naive datetime interprets the fields as local wall-clock time, so the
embedding takes the environment's UTC offset (seconds east of UTC) as
an explicit parameter. -/

/-- Digit value of a character, `none` when it is not an ASCII digit. -/
def digitVal (c : Char) : Option Nat :=
  if c.isDigit then some (c.toNat - 48) else none

/-- Four mandatory digits, as matched by the `%Y` pattern of `_strptime`. -/
def parseY : List Char → Option (Nat × List Char)
  | c1 :: c2 :: c3 :: c4 :: rest => do
    let d1 ← digitVal c1
    let d2 ← digitVal c2
    let d3 ← digitVal c3
    let d4 ← digitVal c4
    some (((d1 * 10 + d2) * 10 + d3) * 10 + d4, rest)
  | _ => none

/-- The `%m` pattern `1[0-2]|0[1-9]|[1-9]`: a two-digit month when the
first alternatives apply, otherwise a single nonzero digit. -/
def parseMon : List Char → Option (Nat × List Char)
  | c1 :: c2 :: rest =>
    match digitVal c1, digitVal c2 with
    | some 1, some d2 =>
      if d2 ≤ 2 then some (10 + d2, rest) else some (1, c2 :: rest)
    | some 0, some d2 =>
      if 1 ≤ d2 then some (d2, rest) else none
    | some d1, _ =>
      if 1 ≤ d1 then some (d1, c2 :: rest) else none
    | none, _ => none
  | [c1] =>
    match digitVal c1 with
    | some d1 => if 1 ≤ d1 then some (d1, []) else none
    | none => none
  | [] => none

/-- The `%d` pattern `3[01]|[12]\d|0[1-9]|[1-9]`. -/
def parseDay : List Char → Option (Nat × List Char)
  | c1 :: c2 :: rest =>
    match digitVal c1, digitVal c2 with
    | some 3, some d2 =>
      if d2 ≤ 1 then some (30 + d2, rest) else some (3, c2 :: rest)
    | some 1, some d2 => some (10 + d2, rest)
    | some 2, some d2 => some (20 + d2, rest)
    | some 0, some d2 =>
      if 1 ≤ d2 then some (d2, rest) else none
    | some d1, _ =>
      if 1 ≤ d1 then some (d1, c2 :: rest) else none
    | none, _ => none
  | [c1] =>
    match digitVal c1 with
    | some d1 => if 1 ≤ d1 then some (d1, []) else none
    | none => none
  | [] => none

/-- The `%H` pattern `2[0-3]|[0-1]\d|\d`. -/
def parseHour : List Char → Option (Nat × List Char)
  | c1 :: c2 :: rest =>
    match digitVal c1, digitVal c2 with
    | some 2, some d2 =>
      if d2 ≤ 3 then some (20 + d2, rest) else some (2, c2 :: rest)
    | some 0, some d2 => some (d2, rest)
    | some 1, some d2 => some (10 + d2, rest)
    | some d1, _ => some (d1, c2 :: rest)
    | none, _ => none
  | [c1] =>
    match digitVal c1 with
    | some d1 => some (d1, [])
    | none => none
  | [] => none

/-- The `%M` pattern `[0-5]\d|\d`. -/
def parseMin : List Char → Option (Nat × List Char)
  | c1 :: c2 :: rest =>
    match digitVal c1, digitVal c2 with
    | some d1, some d2 =>
      if d1 ≤ 5 then some (d1 * 10 + d2, rest) else some (d1, c2 :: rest)
    | some d1, none => some (d1, c2 :: rest)
    | none, _ => none
  | [c1] =>
    match digitVal c1 with
    | some d1 => some (d1, [])
    | none => none
  | [] => none

/-- The `%S` pattern `6[0-1]|[0-5]\d|\d`. -/
def parseSec : List Char → Option (Nat × List Char)
  | c1 :: c2 :: rest =>
    match digitVal c1, digitVal c2 with
    | some 6, some d2 =>
      if d2 ≤ 1 then some (60 + d2, rest) else some (6, c2 :: rest)
    | some d1, some d2 =>
      if d1 ≤ 5 then some (d1 * 10 + d2, rest) else some (d1, c2 :: rest)
    | some d1, _ => some (d1, c2 :: rest)
    | none, _ => none
  | [c1] =>
    match digitVal c1 with
    | some d1 => some (d1, [])
    | none => none
  | [] => none

/-- Expect one literal character, as for the `-`, `T` and `:` separators
in the format string. -/
def parseLit (c : Char) : List Char → Option (List Char)
  | c1 :: rest => if c1 = c then some rest else none
  | [] => none

/-- Broken-down result of a successful `strptime` call. -/
structure DateTime6 where
  year : Nat
  month : Nat
  day : Nat
  hour : Nat
  minute : Nat
  second : Nat
deriving DecidableEq

/-- Gregorian leap-year test, as used by `datetime`. -/
def isLeap (y : Nat) : Bool :=
  y % 4 = 0 && (y % 100 ≠ 0 || y % 400 = 0)

/-- Number of days in a month of a given year. -/
def daysInMonth (y m : Nat) : Nat :=
  if m = 2 then (if isLeap y then 29 else 28)
  else if m = 4 || m = 6 || m = 9 || m = 11 then 30
  else 31

/-- Range validation performed by the `datetime` constructor on the
fields delivered by the regular-expression match: the year must lie in
`MINYEAR..MAXYEAR`, the day must exist in the month, and the second
must be below 60 (the patterns already bound month, hour and minute,
but let a leap-second 60 or 61 through, which `datetime` rejects). -/
def validDateTime (dt : DateTime6) : Bool :=
  1 ≤ dt.year && dt.year ≤ 9999 &&
  1 ≤ dt.month && dt.month ≤ 12 &&
  1 ≤ dt.day && dt.day ≤ daysInMonth dt.year dt.month &&
  dt.hour ≤ 23 && dt.minute ≤ 59 && dt.second ≤ 59

/-- The embedding of `datetime.strptime(x, "%Y-%m-%dT%H:%M:%S")`:
match each directive and literal in order, require the whole string to
be consumed, then validate the fields; `none` is the `ValueError`
raised by `strptime`. -/
def strptimeIso (x : String) : Option DateTime6 := do
  let s0 := x.toList
  let (y, s1) ← parseY s0
  let s2 ← parseLit '-' s1
  let (mo, s3) ← parseMon s2
  let s4 ← parseLit '-' s3
  let (d, s5) ← parseDay s4
  let s6 ← parseLit 'T' s5
  let (h, s7) ← parseHour s6
  let s8 ← parseLit ':' s7
  let (mi, s9) ← parseMin s8
  let s10 ← parseLit ':' s9
  let (sec, s11) ← parseSec s10
  if s11 = [] then
    let dt : DateTime6 := ⟨y, mo, d, h, mi, sec⟩
    if validDateTime dt then some dt else none
  else none

/-- Days between 1970-01-01 and a civil date (the standard
era-of-400-years computation over the proleptic Gregorian calendar). -/
def daysFromCivil (y m d : Int) : Int :=
  let y2 : Int := if m ≤ 2 then y - 1 else y
  let era : Int := (if 0 ≤ y2 then y2 else y2 - 399) / 400
  let yoe : Int := y2 - era * 400
  let mp : Int := if 2 < m then m - 3 else m + 9
  let doy : Int := (153 * mp + 2) / 5 + d - 1
  let doe : Int := yoe * 365 + yoe / 4 - yoe / 100 + doy
  era * 146097 + doe - 719468

/-- Epoch seconds of a broken-down time read as UTC. -/
def utcEpoch (dt : DateTime6) : Int :=
  daysFromCivil dt.year dt.month dt.day * 86400 +
    dt.hour * 3600 + dt.minute * 60 + dt.second

/-- The embedding of the source's
`isoDateToTimestap = lambda x : datetime.strptime(x, "%Y-%m-%dT%H:%M:%S").timestamp()`.
`timestamp()` on the naive datetime produced by `strptime` interprets
the fields as local wall-clock time, so the resulting epoch value is
the UTC reading of the fields minus `tzOffset`, the environment's UTC
offset in seconds (east positive) in effect at that local time.
`none` is the uncaught `ValueError` from `strptime`. -/
def isoDateToTimestap (tzOffset : Int) (x : String) : Option Int :=
  (strptimeIso x).map (fun dt => utcEpoch dt - tzOffset)

example : daysFromCivil 1970 1 1 = 0 := by decide
example : daysFromCivil 2021 3 4 = 18690 := by decide
example : strptimeIso "2021-03-04T10:15:30" = some ⟨2021, 3, 4, 10, 15, 30⟩ := by decide
example : strptimeIso "not-a-date" = none := by decide
example : isoDateToTimestap 0 "2021-03-04T10:15:30" = some 1614852930 := by decide

/-! ## The `get_text` text-backfill engine

`get_text` creates `bookmark_text(bookmark_id integer primary key,
text, error)`, runs
`select b.* from bookmarks b left join bookmark_text bt on
 b.bookmark_id = bt.bookmark_id where bt.text is null;`
once, logs in, and then loops over the result: it stringifies the row,
re-parses `progress_timestamp` and `time` with `isoDateToTimestap`
(outside the `try` block), and inside the `try` block fetches the
text, decodes it as UTF-8 and inserts
`{bookmark_id, text, error=False}`; the `except Exception` handler
inserts `{bookmark_id, text="", error=True}` instead.

The embedding keeps the columns of a `bookmarks` row that the loop
reads by name (`bookmark_id`, `title` for tracing, and the two
timestamp columns); the remaining columns only travel opaquely into
the `Bookmark(...)` constructor call.  `bookmark_id` is stringified by
the loop and converted back to an integer by SQLite's column affinity
on insert, so it stays an `Int` here.  The remote
`Bookmark.get_text()['data'].decode('utf-8')` pipeline is an oracle
`fetch : Int → Option String`: `some txt` is a successful fetch
decoding to `txt`, `none` is any exception raised inside the `try`
block before the insert. -/

/-- Row of the `bookmarks` table as read by the `get_text` loop. -/
structure BookmarkRow where
  bookmark_id : Int
  title : String
  progress_timestamp : String
  time : String
deriving DecidableEq

/-- Row of the `bookmark_text` table; `text` is a nullable column. -/
structure TextRow where
  bookmark_id : Int
  text : Option String
  error : Bool
deriving DecidableEq

/-- The two tables `get_text` touches. -/
structure TextDB where
  bookmarks : List BookmarkRow
  bookmark_text : List TextRow
deriving DecidableEq

/-- Whether `bookmark_text` already holds a row for this primary key. -/
def hasId (bt : List TextRow) (i : Int) : Bool :=
  bt.any (fun r => r.bookmark_id == i)

/-- An `INSERT` into `bookmark_text`: appends the row, or fails with
`sqlite3.IntegrityError` (`none`) when the primary key is taken. -/
def sqlInsertText (bt : List TextRow) (r : TextRow) : Option (List TextRow) :=
  if hasId bt r.bookmark_id then none else some (bt ++ [r])

/-- The working-set query
`select b.* from bookmarks b left join bookmark_text bt on
 b.bookmark_id = bt.bookmark_id where bt.text is null;`:
each `bookmarks` row is emitted once per joined row whose `bt.text` is
`NULL`, where a row with no `bookmark_text` match joins against an
all-`NULL` right side. -/
def wsBody (bt : List TextRow) (b : BookmarkRow) : List BookmarkRow :=
  if (bt.filter (fun r => r.bookmark_id == b.bookmark_id)).isEmpty then [b]
  else (bt.filter (fun r => r.bookmark_id == b.bookmark_id)).filterMap
    (fun r => if r.text.isNone then some b else none)

/-- The full working-set query result, one output row per surviving
joined row. -/
def unpopulated_bookmarks (db : TextDB) : List BookmarkRow :=
  db.bookmarks.flatMap (wsBody db.bookmark_text)

/-- Run-aborting exceptions of the `get_text` loop: the `ValueError`
of `isoDateToTimestap` raised outside the `try` block (tagged with the
offending field), and an `IntegrityError` escaping the `except`
handler when its own insert hits an existing primary key. -/
inductive RunError where
  | valueError (field : String)
  | integrityError (id : Int)
deriving DecidableEq

/-- Body of the `try`/`except` for one bookmark, after the timestamp
coercions succeeded: fetch the text; on success insert the decoded
text with `error=False`; on any exception (a failed fetch, or the
success-path insert raising `IntegrityError`) the handler inserts
`{bookmark_id, text="", error=True}`; `none` means the handler's own
insert raised, which nothing catches. -/
def processBookmark (fetch : Int → Option String) (bt : List TextRow)
    (b : BookmarkRow) : Option (List TextRow) :=
  match fetch b.bookmark_id with
  | some txt =>
    match sqlInsertText bt ⟨b.bookmark_id, some txt, false⟩ with
    | some bt1 => some bt1
    | none => sqlInsertText bt ⟨b.bookmark_id, some "", true⟩
  | none => sqlInsertText bt ⟨b.bookmark_id, some "", true⟩

/-- The `for num, row in enumerate(unpopulated_bookmarks)` loop.
`calls` counts invocations of the remote single-bookmark fetch; it is
threaded through errors as well, so an abort reports how many remote
calls had been made. -/
def goGetText (tz : Int) (fetch : Int → Option String) :
    List BookmarkRow → List TextRow → Nat →
    Except (RunError × Nat) (List TextRow × Nat)
  | [], bt, calls => .ok (bt, calls)
  | b :: rest, bt, calls =>
    match isoDateToTimestap tz b.progress_timestamp with
    | none => .error (.valueError "progress_timestamp", calls)
    | some _ =>
      match isoDateToTimestap tz b.time with
      | none => .error (.valueError "time", calls)
      | some _ =>
        match processBookmark fetch bt b with
        | none => .error (.integrityError b.bookmark_id, calls + 1)
        | some bt1 => goGetText tz fetch rest bt1 (calls + 1)

/-- The `get_text` engine after the credential check: compute the
working set once, then run the loop; on success it returns the new
database state and the number of remote single-bookmark fetch calls. -/
def get_text (tz : Int) (fetch : Int → Option String) (db : TextDB) :
    Except (RunError × Nat) (TextDB × Nat) :=
  (goGetText tz fetch (unpopulated_bookmarks db) db.bookmark_text 0).map
    (fun p => (⟨db.bookmarks, p.1⟩, p.2))

/-- Row that one loop iteration commits for a bookmark, as a function
of the fetch outcome. -/
def mkRow (fetch : Int → Option String) (b : BookmarkRow) : TextRow :=
  match fetch b.bookmark_id with
  | some txt => ⟨b.bookmark_id, some txt, false⟩
  | none => ⟨b.bookmark_id, some "", true⟩

/-! ## Structural lemmas about the backfill loop -/

theorem mkRow_id (fetch : Int → Option String) (b : BookmarkRow) :
    (mkRow fetch b).bookmark_id = b.bookmark_id := by
  unfold mkRow
  cases fetch b.bookmark_id <;> rfl

theorem mkRow_text (fetch : Int → Option String) (b : BookmarkRow) :
    (mkRow fetch b).text ≠ none := by
  unfold mkRow
  cases fetch b.bookmark_id <;> simp

theorem hasId_append (l1 l2 : List TextRow) (i : Int) :
    hasId (l1 ++ l2) i = (hasId l1 i || hasId l2 i) := by
  simp [hasId, List.any_append]

theorem hasId_eq_false {bt : List TextRow} {i : Int} :
    hasId bt i = false ↔ ∀ r ∈ bt, r.bookmark_id ≠ i := by
  simp [hasId]

theorem processBookmark_some {fetch : Int → Option String}
    {bt bt1 : List TextRow} {b : BookmarkRow}
    (h : processBookmark fetch bt b = some bt1) :
    hasId bt b.bookmark_id = false ∧ bt1 = bt ++ [mkRow fetch b] := by
  unfold processBookmark at h
  by_cases hid : hasId bt b.bookmark_id
  · exfalso
    cases hf : fetch b.bookmark_id <;>
      simp [hf, sqlInsertText, hid] at h
  · refine ⟨by simp [hid], ?_⟩
    cases hf : fetch b.bookmark_id <;>
      simp only [hf, sqlInsertText, hid, Bool.false_eq_true, if_false,
        Option.some.injEq, mkRow] at h ⊢ <;>
      exact h.symm

/-- Structure of a completed pass of the loop: every item of the
working set commits exactly the row `mkRow fetch b`, in order; the
remote fetch is called once per item; every processed bookmark had no
pre-existing `bookmark_text` row; the processed ids are pairwise
distinct; and both timestamp coercions succeeded for every item. -/
theorem goGetText_ok (tz : Int) (fetch : Int → Option String) :
    ∀ (ws : List BookmarkRow) (bt : List TextRow) (c : Nat)
      (bt' : List TextRow) (c' : Nat),
    goGetText tz fetch ws bt c = .ok (bt', c') →
    bt' = bt ++ ws.map (mkRow fetch) ∧ c' = c + ws.length ∧
    (∀ b ∈ ws, hasId bt b.bookmark_id = false ∧
      (isoDateToTimestap tz b.progress_timestamp).isSome ∧
      (isoDateToTimestap tz b.time).isSome) ∧
    (ws.map (fun b => b.bookmark_id)).Nodup := by
  intro ws
  induction ws with
  | nil =>
    intro bt c bt' c' h
    simp only [goGetText] at h
    cases h
    simp
  | cons b rest ih =>
    intro bt c bt' c' h
    simp only [goGetText] at h
    cases hp : isoDateToTimestap tz b.progress_timestamp with
    | none => rw [hp] at h; exact absurd h (by simp)
    | some vp =>
    cases ht : isoDateToTimestap tz b.time with
    | none => rw [hp, ht] at h; exact absurd h (by simp)
    | some vt =>
    rw [hp, ht] at h
    cases hpr : processBookmark fetch bt b with
    | none => rw [hpr] at h; exact absurd h (by simp)
    | some bt1 =>
    rw [hpr] at h
    obtain ⟨hid, hbt1⟩ := processBookmark_some hpr
    obtain ⟨h1, h2, h3, h4⟩ := ih bt1 (c + 1) bt' c' h
    refine ⟨?_, ?_, ?_, ?_⟩
    · rw [h1, hbt1]
      simp
    · rw [h2]
      simp [List.length_cons]
      omega
    · intro b' hb'
      rcases List.mem_cons.mp hb' with rfl | hb'
      · exact ⟨hid, by simp [hp], by simp [ht]⟩
      · obtain ⟨hid', hts'⟩ := h3 b' hb'
        rw [hbt1, hasId_append] at hid'
        exact ⟨(Bool.or_eq_false_iff.mp hid').1, hts'⟩
    · rw [List.map_cons, List.nodup_cons]
      refine ⟨?_, h4⟩
      intro hmem
      obtain ⟨b', hb', hbe⟩ := List.mem_map.mp hmem
      obtain ⟨hid', _⟩ := h3 b' hb'
      rw [hbt1, hasId_append] at hid'
      have := (Bool.or_eq_false_iff.mp hid').2
      simp [hasId, mkRow_id] at this
      exact this hbe.symm

theorem wsBody_mem {bt : List TextRow} {b x : BookmarkRow}
    (h : x ∈ wsBody bt b) : x = b := by
  unfold wsBody at h
  split at h
  · simpa using h
  · obtain ⟨r, _, hr⟩ := List.mem_filterMap.mp h
    split at hr
    · simpa using hr.symm
    · cases hr

theorem wsBody_eq_nil_iff {bt : List TextRow} {b : BookmarkRow} :
    wsBody bt b = [] ↔
      (∃ r ∈ bt, r.bookmark_id = b.bookmark_id) ∧
      (∀ r ∈ bt, r.bookmark_id = b.bookmark_id → r.text ≠ none) := by
  unfold wsBody
  split
  · rename_i hempty
    simp only [List.isEmpty_iff, List.filter_eq_nil_iff] at hempty
    constructor
    · intro h
      cases h
    · intro ⟨⟨r, hr, hid⟩, _⟩
      exact absurd (by simpa using hid) (by simpa using hempty r hr)
  · rename_i hne
    simp only [List.isEmpty_iff, List.filter_eq_nil_iff] at hne
    push_neg at hne
    obtain ⟨r0, hr0, hid0⟩ := hne
    constructor
    · intro h
      rw [List.filterMap_eq_nil_iff] at h
      refine ⟨⟨r0, hr0, by simpa using hid0⟩, ?_⟩
      intro r hr hid
      have := h r (List.mem_filter.mpr ⟨hr, by simpa using hid⟩)
      intro htxt
      rw [htxt] at this
      simp at this
    · intro ⟨_, hall⟩
      rw [List.filterMap_eq_nil_iff]
      intro r hr
      obtain ⟨hrbt, hid⟩ := List.mem_filter.mp hr
      have := hall r hrbt (by simpa using hid)
      simp only [ite_eq_right_iff]
      intro hnone
      exact absurd (Option.isNone_iff_eq_none.mp hnone) this

theorem mem_unpopulated {db : TextDB} {b : BookmarkRow} :
    b ∈ unpopulated_bookmarks db ↔
      b ∈ db.bookmarks ∧ wsBody db.bookmark_text b ≠ [] := by
  unfold unpopulated_bookmarks
  rw [List.mem_flatMap]
  constructor
  · intro ⟨a, ha, hb⟩
    have := wsBody_mem hb
    subst this
    exact ⟨ha, List.ne_nil_of_mem hb⟩
  · intro ⟨hb, hne⟩
    obtain ⟨x, hx⟩ := List.exists_mem_of_ne_nil _ hne
    obtain rfl := wsBody_mem hx
    exact ⟨x, hb, hx⟩

/-- Unfolding of a successful `get_text` run into the facts delivered
by `goGetText_ok`. -/
theorem get_text_ok_state {tz : Int} {fetch : Int → Option String}
    {db db1 : TextDB} {c : Nat}
    (h : get_text tz fetch db = .ok (db1, c)) :
    db1.bookmarks = db.bookmarks ∧
    db1.bookmark_text =
      db.bookmark_text ++ (unpopulated_bookmarks db).map (mkRow fetch) ∧
    c = (unpopulated_bookmarks db).length ∧
    (∀ b ∈ unpopulated_bookmarks db,
      hasId db.bookmark_text b.bookmark_id = false ∧
      (isoDateToTimestap tz b.progress_timestamp).isSome ∧
      (isoDateToTimestap tz b.time).isSome) ∧
    ((unpopulated_bookmarks db).map (fun b => b.bookmark_id)).Nodup := by
  unfold get_text at h
  cases hg : goGetText tz fetch (unpopulated_bookmarks db) db.bookmark_text 0 with
  | error e => rw [hg] at h; exact absurd h (by simp [Except.map])
  | ok p =>
    rw [hg] at h
    obtain ⟨bt', c'⟩ := p
    simp only [Except.map, Except.ok.injEq, Prod.mk.injEq] at h
    obtain ⟨hdb, hc⟩ := h
    obtain ⟨h1, h2, h3, h4⟩ := goGetText_ok tz fetch _ _ _ _ _ hg
    subst hdb hc
    exact ⟨rfl, h1, by omega, h3, h4⟩

/-- After a completed run, the working-set query returns no rows. -/
theorem unpopulated_after_ok {tz : Int} {fetch : Int → Option String}
    {db db1 : TextDB} {c : Nat}
    (h : get_text tz fetch db = .ok (db1, c)) :
    unpopulated_bookmarks db1 = [] := by
  obtain ⟨hbk, hbt, _, h3, _⟩ := get_text_ok_state h
  unfold unpopulated_bookmarks
  rw [List.flatMap_eq_nil_iff]
  intro b hb
  rw [hbk] at hb
  rw [wsBody_eq_nil_iff]
  by_cases hws : wsBody db.bookmark_text b = []
  · obtain ⟨⟨r, hr, hid⟩, hall⟩ := wsBody_eq_nil_iff.mp hws
    refine ⟨⟨r, by rw [hbt]; exact List.mem_append_left _ hr, hid⟩, ?_⟩
    intro r' hr' hid'
    rw [hbt] at hr'
    rcases List.mem_append.mp hr' with hold | hnew
    · exact hall r' hold hid'
    · obtain ⟨b', _, hb'⟩ := List.mem_map.mp hnew
      rw [← hb']
      exact mkRow_text fetch b'
  · have hbws : b ∈ unpopulated_bookmarks db := mem_unpopulated.mpr ⟨hb, hws⟩
    obtain ⟨hid, _⟩ := h3 b hbws
    have hmk : mkRow fetch b ∈ db1.bookmark_text := by
      rw [hbt]
      exact List.mem_append_right _ (List.mem_map_of_mem _ hbws)
    refine ⟨⟨mkRow fetch b, hmk, mkRow_id fetch b⟩, ?_⟩
    intro r hr hidr
    rw [hbt] at hr
    rcases List.mem_append.mp hr with hold | hnew
    · exact absurd hidr (hasId_eq_false.mp hid r hold)
    · obtain ⟨b', _, hb'⟩ := List.mem_map.mp hnew
      rw [← hb']
      exact mkRow_text fetch b'

/-- A run over an empty working set is a completed no-op: no remote
calls, no new rows. -/
theorem get_text_noop {db : TextDB}
    (h : unpopulated_bookmarks db = []) (tz : Int)
    (fetch : Int → Option String) :
    get_text tz fetch db = .ok (db, 0) := by
  unfold get_text
  rw [h]
  rfl

example : get_text 0 (fun _ => some "hello")
    ⟨[⟨1, "t", "2021-03-04T10:15:30", "2021-03-04T10:15:30"⟩], []⟩ =
    .ok (⟨[⟨1, "t", "2021-03-04T10:15:30", "2021-03-04T10:15:30"⟩],
          [⟨1, some "hello", false⟩]⟩, 1) := by rfl

theorem mkRow_error (fetch : Int → Option String) (b : BookmarkRow) :
    (mkRow fetch b).error = (fetch b.bookmark_id).isNone := by
  unfold mkRow
  cases fetch b.bookmark_id <;> rfl

theorem hasId_map_mkRow (fetch : Int → Option String)
    (l : List BookmarkRow) (i : Int) :
    hasId (l.map (mkRow fetch)) i = l.any (fun b => b.bookmark_id == i) := by
  induction l with
  | nil => rfl
  | cons b rest ih =>
    simp only [hasId, List.map_cons, List.any_cons] at ih ⊢
    rw [mkRow_id, ih]

theorem processBookmark_eq {fetch : Int → Option String}
    {bt : List TextRow} {b : BookmarkRow}
    (hid : hasId bt b.bookmark_id = false) :
    processBookmark fetch bt b = some (bt ++ [mkRow fetch b]) := by
  unfold processBookmark mkRow
  cases fetch b.bookmark_id <;>
    simp [sqlInsertText, hid]

/-- Completeness of the loop: as long as every working-set item has
parseable timestamps and a fresh primary key, the loop runs to the
end, whatever the fetch outcomes are. -/
theorem goGetText_total (tz : Int) (fetch : Int → Option String) :
    ∀ (ws : List BookmarkRow) (bt : List TextRow) (c : Nat),
    (∀ b ∈ ws, hasId bt b.bookmark_id = false ∧
      (isoDateToTimestap tz b.progress_timestamp).isSome ∧
      (isoDateToTimestap tz b.time).isSome) →
    (ws.map (fun b => b.bookmark_id)).Nodup →
    goGetText tz fetch ws bt c = .ok (bt ++ ws.map (mkRow fetch), c + ws.length) := by
  intro ws
  induction ws with
  | nil =>
    intro bt c _ _
    simp [goGetText]
  | cons b rest ih =>
    intro bt c hall hnd
    obtain ⟨hid, hp, ht⟩ := hall b (List.mem_cons_self b rest)
    obtain ⟨vp, hvp⟩ := Option.isSome_iff_exists.mp hp
    obtain ⟨vt, hvt⟩ := Option.isSome_iff_exists.mp ht
    rw [List.map_cons, List.nodup_cons] at hnd
    simp only [goGetText, hvp, hvt, processBookmark_eq hid]
    have hrest : ∀ b' ∈ rest, hasId (bt ++ [mkRow fetch b]) b'.bookmark_id = false ∧
        (isoDateToTimestap tz b'.progress_timestamp).isSome ∧
        (isoDateToTimestap tz b'.time).isSome := by
      intro b' hb'
      obtain ⟨hid', hp', ht'⟩ := hall b' (List.mem_cons_of_mem _ hb')
      refine ⟨?_, hp', ht'⟩
      rw [hasId_append, hid']
      simp only [Bool.false_or, hasId, List.any_cons, List.any_nil,
        Bool.or_false, mkRow_id]
      rw [beq_eq_false_iff_ne]
      intro hc
      exact hnd.1 (List.mem_map.mpr ⟨b', hb', hc.symm⟩)
    rw [ih (bt ++ [mkRow fetch b]) (c + 1) hrest hnd.2]
    exact congrArg Except.ok
      (Prod.ext (by first | rfl | simp)
        (by simp only [List.length_cons]; omega))

theorem wsBody_of_nn {bt : List TextRow}
    (hnn : ∀ r ∈ bt, r.text ≠ none) (b : BookmarkRow) :
    wsBody bt b = if hasId bt b.bookmark_id then [] else [b] := by
  unfold wsBody
  by_cases hid : hasId bt b.bookmark_id
  · have hne : ¬(bt.filter (fun r => r.bookmark_id == b.bookmark_id)).isEmpty := by
      obtain ⟨r, hr, hrid⟩ := by
        simpa [hasId, List.any_eq_true] using hid
      simp only [List.isEmpty_iff, List.filter_eq_nil_iff]
      push_neg
      exact ⟨r, hr, by simpa using hrid⟩
    rw [if_neg hne, if_pos hid, List.filterMap_eq_nil_iff]
    intro r hr
    have := hnn r (List.mem_filter.mp hr).1
    simp only [ite_eq_right_iff]
    intro hnone
    exact absurd (Option.isNone_iff_eq_none.mp hnone) this
  · have hemp : (bt.filter (fun r => r.bookmark_id == b.bookmark_id)).isEmpty := by
      simp only [List.isEmpty_iff, List.filter_eq_nil_iff]
      intro r hr
      have := hasId_eq_false.mp (by simpa using hid) r hr
      simpa using this
    rw [if_pos hemp, if_neg hid]

theorem flatMap_if_eq_filter (l : List BookmarkRow)
    (f : BookmarkRow → List BookmarkRow) (p : BookmarkRow → Bool)
    (hf : ∀ b ∈ l, f b = if p b then [b] else []) :
    l.flatMap f = l.filter p := by
  induction l with
  | nil => rfl
  | cons b rest ih =>
    rw [List.flatMap_cons, List.filter_cons,
      hf b (List.mem_cons_self b rest),
      ih (fun b' hb' => hf b' (List.mem_cons_of_mem _ hb'))]
    by_cases hp : p b <;> simp [hp]

/-- Under the invariant that no stored `text` is `NULL`, the
working-set query is the left-anti-join of `bookmarks` against
`bookmark_text` on `bookmark_id`. -/
theorem unpopulated_eq_filter {db : TextDB}
    (hnn : ∀ r ∈ db.bookmark_text, r.text ≠ none) :
    unpopulated_bookmarks db =
      db.bookmarks.filter (fun b => !hasId db.bookmark_text b.bookmark_id) := by
  unfold unpopulated_bookmarks
  apply flatMap_if_eq_filter
  intro b _
  rw [wsBody_of_nn hnn b]
  by_cases hid : hasId db.bookmark_text b.bookmark_id <;> simp [hid]

/-- The working set as the specification words it: a left-anti-join of
`bookmarks` against `bookmark_text` on `bookmark_id`, keeping exactly
the bookmarks with no text row at all. -/
def workingSetSpec (db : TextDB) : List BookmarkRow :=
  db.bookmarks.filter (fun b => !hasId db.bookmark_text b.bookmark_id)

/-- Primary-key uniqueness of the `bookmark_text` table: pairwise
distinct `bookmark_id` values. -/
def PkUnique (bt : List TextRow) : Prop :=
  (bt.map (fun r => r.bookmark_id)).Nodup

/-! ## Claim theorems for the backfill engine -/

/-- C1: the claim says a bookmark whose `progress_timestamp` or `time`
is not a valid `YYYY-MM-DDTHH:MM:SS` string is treated as a per-item
failure (caught, error row inserted, processing continues).  The code
disagrees: `isoDateToTimestap` is applied outside the `try` block, so
the `ValueError` aborts the whole run.  This theorem evaluates the
engine on a working set whose first bookmark carries
`progress_timestamp = "not-a-date"`: the run ends in the uncaught
`ValueError` with zero remote calls made, no error row inserted, and
the second bookmark never processed. -/
theorem C1_malformed_timestamp_aborts_run :
    get_text 0 (fun _ => some "text")
      ⟨[⟨7, "seven", "not-a-date", "2021-03-04T10:15:30"⟩,
        ⟨8, "eight", "2021-03-04T10:15:30", "2021-03-04T10:15:30"⟩], []⟩ =
      .error (.valueError "progress_timestamp", 0) ∧
    isoDateToTimestap 0 "not-a-date" = none :=
  ⟨rfl, rfl⟩

/-- C2 counterexample: the timestamp conversion is not independent of
the local timezone.  In an environment one hour east of UTC
(offset 3600 seconds, e.g. CET), the naive `timestamp()` of
`"2021-03-04T10:15:30"` is 1614849330, not the claimed 1614852930. -/
theorem C2_counterexample :
    isoDateToTimestap 3600 "2021-03-04T10:15:30" = some 1614849330 ∧
    (1614849330 : Int) ≠ 1614852930 :=
  ⟨rfl, by decide⟩

/-- C2 (amended): the conversion parses the ISO-8601 string as a naive
datetime, and `timestamp()` interprets it in the environment's local
timezone: for `"2021-03-04T10:15:30"` the derived epoch value is
`1614852930 - tz` where `tz` is the environment's UTC offset in
seconds, so it equals 1614852930 exactly when the environment is UTC,
not independently of the timezone. -/
theorem C2_epoch_is_local (tz : Int) :
    isoDateToTimestap tz "2021-03-04T10:15:30" = some (1614852930 - tz) := by
  have h : strptimeIso "2021-03-04T10:15:30" = some ⟨2021, 3, 4, 10, 15, 30⟩ := rfl
  have hu : utcEpoch ⟨2021, 3, 4, 10, 15, 30⟩ = 1614852930 := rfl
  unfold isoDateToTimestap
  rw [h, Option.map_some', hu]

/-- C3: running the Text Backfill Engine twice in a row with no
intervening sync is idempotent: after any completed run the working
set is empty, so a second run (with any fetch oracle and any timezone)
performs zero remote calls, inserts zero rows and leaves the database
unchanged; more generally any run over an empty working set is a no-op
producing no new rows. -/
theorem C3_backfill_idempotent (tz tz2 : Int)
    (fetch fetch2 : Int → Option String) (db db1 : TextDB) (c : Nat)
    (h : get_text tz fetch db = .ok (db1, c)) :
    unpopulated_bookmarks db1 = [] ∧
    get_text tz2 fetch2 db1 = .ok (db1, 0) ∧
    (∀ db2 : TextDB, unpopulated_bookmarks db2 = [] →
      get_text tz2 fetch2 db2 = .ok (db2, 0)) := by
  have he := unpopulated_after_ok h
  exact ⟨he, get_text_noop he tz2 fetch2,
    fun db2 h2 => get_text_noop h2 tz2 fetch2⟩

/-- Witness for C3: a completed one-bookmark run, after which the
second run returns the same state with zero remote calls. -/
theorem C3_backfill_idempotent_witness :
    get_text 0 (fun _ => some "hello")
      ⟨[⟨1, "t", "2021-03-04T10:15:30", "2021-03-04T10:15:30"⟩], []⟩ =
      .ok (⟨[⟨1, "t", "2021-03-04T10:15:30", "2021-03-04T10:15:30"⟩],
            [⟨1, some "hello", false⟩]⟩, 1) ∧
    get_text 0 (fun _ => some "hello")
      ⟨[⟨1, "t", "2021-03-04T10:15:30", "2021-03-04T10:15:30"⟩],
       [⟨1, some "hello", false⟩]⟩ =
      .ok (⟨[⟨1, "t", "2021-03-04T10:15:30", "2021-03-04T10:15:30"⟩],
            [⟨1, some "hello", false⟩]⟩, 0) :=
  ⟨rfl,
    (C3_backfill_idempotent 0 0 (fun _ => some "hello") (fun _ => some "hello")
      ⟨[⟨1, "t", "2021-03-04T10:15:30", "2021-03-04T10:15:30"⟩], []⟩
      ⟨[⟨1, "t", "2021-03-04T10:15:30", "2021-03-04T10:15:30"⟩],
       [⟨1, some "hello", false⟩]⟩ 1 rfl).2.1⟩

/-- C4 counterexample: the claim that every successfully processed
bookmark gets a non-empty `text` fails on the code: the engine stores
whatever the remote returned, so a successful fetch that decodes to
the empty string yields a row with `error=false` and `text=""`. -/
theorem C4_counterexample :
    get_text 0 (fun _ => some "")
      ⟨[⟨1, "t", "2021-03-04T10:15:30", "2021-03-04T10:15:30"⟩], []⟩ =
      .ok (⟨[⟨1, "t", "2021-03-04T10:15:30", "2021-03-04T10:15:30"⟩],
            [⟨1, some "", false⟩]⟩, 1) ∧
    ∃ r ∈ ([⟨1, some "", false⟩] : List TextRow),
      r.error = false ∧ r.text = some "" :=
  ⟨rfl, by decide⟩

/-- C4 (amended): after any completed run starting from a table with
unique primary keys, `bookmark_text` still has at most one row per
`bookmark_id`; every row written for a failed bookmark has
`error=true` and `text=""`, and every row written for a successfully
processed bookmark has `error=false` and `text` equal to the decoded
remote payload (hence non-empty whenever the remote payload is
non-empty). -/
theorem C4_rows_invariant {tz : Int} {fetch : Int → Option String}
    {db db1 : TextDB} {c : Nat}
    (huniq : PkUnique db.bookmark_text)
    (h : get_text tz fetch db = .ok (db1, c)) :
    PkUnique db1.bookmark_text ∧
    ∃ new, db1.bookmark_text = db.bookmark_text ++ new ∧
      ∀ r ∈ new,
        (r.error = true ∧ r.text = some "" ∧ fetch r.bookmark_id = none) ∨
        (r.error = false ∧ r.text = fetch r.bookmark_id ∧
          fetch r.bookmark_id ≠ none) := by
  obtain ⟨hbk, hbt, hc, h3, h4⟩ := get_text_ok_state h
  constructor
  · unfold PkUnique
    rw [hbt, List.map_append, List.nodup_append]
    refine ⟨huniq, ?_, ?_⟩
    · rw [List.map_map]
      have hcomp : ((fun r : TextRow => r.bookmark_id) ∘ mkRow fetch) =
          fun b : BookmarkRow => b.bookmark_id :=
        funext fun b => mkRow_id fetch b
      rw [hcomp]
      exact h4
    · intro i hiold hinew
      rw [List.map_map] at hinew
      obtain ⟨b1, hb1, hb1e⟩ := List.mem_map.mp hinew
      obtain ⟨r, hrold, hre⟩ := List.mem_map.mp hiold
      obtain ⟨hid, _⟩ := h3 b1 hb1
      have : r.bookmark_id ≠ b1.bookmark_id := hasId_eq_false.mp hid r hrold
      apply this
      rw [hre]
      rw [← hb1e]
      simp [Function.comp, mkRow_id]
  · refine ⟨(unpopulated_bookmarks db).map (mkRow fetch), hbt, ?_⟩
    intro r hr
    obtain ⟨b1, hb1, hb1e⟩ := List.mem_map.mp hr
    subst hb1e
    cases hf : fetch b1.bookmark_id with
    | none =>
      left
      simp [mkRow, hf]
    | some txt =>
      right
      simp [mkRow, hf]

/-- Witness for C4 (amended): a one-bookmark run from an empty table
with a successful non-empty fetch. -/
theorem C4_rows_invariant_witness :
    PkUnique ([] : List TextRow) ∧
    (PkUnique ([⟨1, some "hello", false⟩] : List TextRow) ∧
      ∃ new, ([⟨1, some "hello", false⟩] : List TextRow) = [] ++ new ∧
        ∀ r ∈ new,
          (r.error = true ∧ r.text = some "" ∧
            (fun _ : Int => some "hello") r.bookmark_id = none) ∨
          (r.error = false ∧
            r.text = (fun _ : Int => some "hello") r.bookmark_id ∧
            (fun _ : Int => some "hello") r.bookmark_id ≠ none)) :=
  ⟨by simp [PkUnique],
    @C4_rows_invariant 0 (fun _ : Int => some "hello")
      ⟨[⟨1, "t", "2021-03-04T10:15:30", "2021-03-04T10:15:30"⟩], []⟩
      ⟨[⟨1, "t", "2021-03-04T10:15:30", "2021-03-04T10:15:30"⟩],
       [⟨1, some "hello", false⟩]⟩ 1
      (by simp [PkUnique]) rfl⟩

/-- C10: every row the backfill inserts has a non-NULL `text` (decoded
article text on success, `""` on failure); under that invariant the
`bt.text is null` filter of the working-set query selects exactly the
bookmarks with no `bookmark_text` row at all, i.e. it coincides with
the left-anti-join on `bookmark_id` described by the spec. -/
theorem C10_antijoin_invariant {db : TextDB}
    (hnn : ∀ r ∈ db.bookmark_text, r.text ≠ none) :
    unpopulated_bookmarks db = workingSetSpec db ∧
    ∀ (tz : Int) (fetch : Int → Option String) (db1 : TextDB) (c : Nat),
      get_text tz fetch db = .ok (db1, c) →
      ∀ r ∈ db1.bookmark_text, r.text ≠ none := by
  refine ⟨unpopulated_eq_filter hnn, ?_⟩
  intro tz fetch db1 c h r hr
  obtain ⟨_, hbt, _, _, _⟩ := get_text_ok_state h
  rw [hbt] at hr
  rcases List.mem_append.mp hr with hold | hnew
  · exact hnn r hold
  · obtain ⟨b1, _, hb1⟩ := List.mem_map.mp hnew
    rw [← hb1]
    exact mkRow_text fetch b1

/-- Witness for C10: a database holding one non-NULL text row for a
different bookmark; the query equals the anti-join. -/
theorem C10_antijoin_invariant_witness :
    (∀ r ∈ ([⟨2, some "x", false⟩] : List TextRow), r.text ≠ none) ∧
    unpopulated_bookmarks ⟨[⟨1, "t", "a", "b"⟩], [⟨2, some "x", false⟩]⟩ =
      workingSetSpec ⟨[⟨1, "t", "a", "b"⟩], [⟨2, some "x", false⟩]⟩ :=
  ⟨by decide,
    (@C10_antijoin_invariant
      ⟨[⟨1, "t", "a", "b"⟩], [⟨2, some "x", false⟩]⟩ (by decide)).1⟩

/-- C6: a failed fetch for one bookmark is caught at the item
boundary: the engine inserts the `error=true` row and continues, so
the whole run completes whatever the fetch outcomes are (provided the
timestamps parse, no stored text is NULL and primary keys are fresh:
otherwise the uncaught exceptions of C1 apply); the completed run
holds one new row per working-set bookmark, with as many `error=false`
rows as successful fetches and as many `error=true` rows as failed
ones, and every failed bookmark gets the row
`(bookmark_id, text="", error=true)`. -/
theorem C6_per_item_failure_isolated {tz : Int}
    {fetch : Int → Option String} {db : TextDB}
    (hts : ∀ b ∈ unpopulated_bookmarks db,
      (isoDateToTimestap tz b.progress_timestamp).isSome ∧
      (isoDateToTimestap tz b.time).isSome)
    (hnn : ∀ r ∈ db.bookmark_text, r.text ≠ none)
    (hids : ((unpopulated_bookmarks db).map (fun b => b.bookmark_id)).Nodup) :
    get_text tz fetch db =
      .ok (⟨db.bookmarks,
        db.bookmark_text ++ (unpopulated_bookmarks db).map (mkRow fetch)⟩,
        (unpopulated_bookmarks db).length) ∧
    (((unpopulated_bookmarks db).map (mkRow fetch)).filter
        (fun r => r.error)).length =
      ((unpopulated_bookmarks db).filter
        (fun b => (fetch b.bookmark_id).isNone)).length ∧
    (((unpopulated_bookmarks db).map (mkRow fetch)).filter
        (fun r => !r.error)).length =
      ((unpopulated_bookmarks db).filter
        (fun b => (fetch b.bookmark_id).isSome)).length ∧
    ∀ b ∈ unpopulated_bookmarks db, fetch b.bookmark_id = none →
      (⟨b.bookmark_id, some "", true⟩ : TextRow) ∈
        (unpopulated_bookmarks db).map (mkRow fetch) := by
  have hdisj : ∀ b ∈ unpopulated_bookmarks db,
      hasId db.bookmark_text b.bookmark_id = false := by
    intro b hb
    obtain ⟨hbm, hne⟩ := mem_unpopulated.mp hb
    rw [wsBody_of_nn hnn b] at hne
    cases hid : hasId db.bookmark_text b.bookmark_id
    · rfl
    · rw [hid] at hne
      simp at hne
  refine ⟨?_, ?_, ?_, ?_⟩
  · unfold get_text
    rw [goGetText_total tz fetch (unpopulated_bookmarks db) db.bookmark_text 0
      (fun b hb => ⟨hdisj b hb, (hts b hb).1, (hts b hb).2⟩) hids]
    simp [Except.map]
  · rw [List.filter_map, List.length_map]
    apply congrArg List.length
    apply List.filter_congr
    intro b _
    simp [Function.comp, mkRow_error]
  · rw [List.filter_map, List.length_map]
    apply congrArg List.length
    apply List.filter_congr
    intro b _
    cases hf : fetch b.bookmark_id <;> simp [Function.comp, mkRow, hf]
  · intro b hb hf
    have : mkRow fetch b = ⟨b.bookmark_id, some "", true⟩ := by
      unfold mkRow
      rw [hf]
    rw [← this]
    exact List.mem_map_of_mem _ hb

/-- Witness for C6: the three-bookmark scenario of the spec — fetch
succeeds for bookmarks 1 and 3 and throws for bookmark 2; the run
completes with one row per bookmark. -/
theorem C6_per_item_failure_isolated_witness :
    (∀ b ∈ unpopulated_bookmarks
        ⟨[⟨1, "a", "2021-03-04T10:15:30", "2021-03-04T10:15:30"⟩,
          ⟨2, "b", "2021-03-04T10:15:30", "2021-03-04T10:15:30"⟩,
          ⟨3, "c", "2021-03-04T10:15:30", "2021-03-04T10:15:30"⟩], []⟩,
      (isoDateToTimestap 0 b.progress_timestamp).isSome ∧
      (isoDateToTimestap 0 b.time).isSome) ∧
    get_text 0 (fun i => if i == 2 then none else some "body")
      ⟨[⟨1, "a", "2021-03-04T10:15:30", "2021-03-04T10:15:30"⟩,
        ⟨2, "b", "2021-03-04T10:15:30", "2021-03-04T10:15:30"⟩,
        ⟨3, "c", "2021-03-04T10:15:30", "2021-03-04T10:15:30"⟩], []⟩ =
      .ok (⟨[⟨1, "a", "2021-03-04T10:15:30", "2021-03-04T10:15:30"⟩,
             ⟨2, "b", "2021-03-04T10:15:30", "2021-03-04T10:15:30"⟩,
             ⟨3, "c", "2021-03-04T10:15:30", "2021-03-04T10:15:30"⟩],
            (unpopulated_bookmarks
              ⟨[⟨1, "a", "2021-03-04T10:15:30", "2021-03-04T10:15:30"⟩,
                ⟨2, "b", "2021-03-04T10:15:30", "2021-03-04T10:15:30"⟩,
                ⟨3, "c", "2021-03-04T10:15:30", "2021-03-04T10:15:30"⟩], []⟩).map
              (mkRow (fun i => if i == 2 then none else some "body"))⟩,
        (unpopulated_bookmarks
          ⟨[⟨1, "a", "2021-03-04T10:15:30", "2021-03-04T10:15:30"⟩,
            ⟨2, "b", "2021-03-04T10:15:30", "2021-03-04T10:15:30"⟩,
            ⟨3, "c", "2021-03-04T10:15:30", "2021-03-04T10:15:30"⟩], []⟩).length) :=
  ⟨by decide,
    (@C6_per_item_failure_isolated 0
      (fun i => if i == 2 then none else some "body")
      ⟨[⟨1, "a", "2021-03-04T10:15:30", "2021-03-04T10:15:30"⟩,
        ⟨2, "b", "2021-03-04T10:15:30", "2021-03-04T10:15:30"⟩,
        ⟨3, "c", "2021-03-04T10:15:30", "2021-03-04T10:15:30"⟩], []⟩
      (by decide) (by decide) (by decide)).1⟩

theorem filter_not_front_ids (l1 l2 : List BookmarkRow)
    (hnd : ((l1 ++ l2).map (fun b => b.bookmark_id)).Nodup) :
    (l1 ++ l2).filter
      (fun b => !l1.any (fun a => a.bookmark_id == b.bookmark_id)) = l2 := by
  rw [List.filter_append]
  have h1 : l1.filter
      (fun b => !l1.any (fun a => a.bookmark_id == b.bookmark_id)) = [] := by
    rw [List.filter_eq_nil_iff]
    intro b hb
    simp only [Bool.not_eq_true', Bool.not_eq_false]
    rw [List.any_eq_true]
    exact ⟨b, hb, by simp⟩
  have h2 : l2.filter
      (fun b => !l1.any (fun a => a.bookmark_id == b.bookmark_id)) = l2 := by
    rw [List.filter_eq_self]
    intro b hb
    rw [List.map_append, List.nodup_append] at hnd
    simp only [Bool.not_eq_true']
    rw [List.any_eq_false]
    intro a ha
    simp only [beq_iff_eq]
    intro hab
    exact hnd.2.2 (List.mem_map.mpr ⟨a, ha, rfl⟩)
      (List.mem_map.mpr ⟨b, hb, hab.symm⟩)
  rw [h1, h2, List.nil_append]

/-- C5: the backfill loop processes the working set sequentially in
query order and commits each bookmark's outcome row before starting
the next, so if a run stops after the first N working-set bookmarks,
exactly their rows are persisted (appended in order), the remote fetch
was called once per processed bookmark, and the next run's working set
is exactly the remaining suffix — bookmarks 1..N are not re-fetched.
The hypotheses are the standing invariants: stored text is never NULL
and the `bookmarks` table has unique primary keys. -/
theorem C5_progress_preserved {tz : Int} {fetch : Int → Option String}
    {db : TextDB} {N : Nat} {bt2 : List TextRow} {c2 : Nat}
    (hnn : ∀ r ∈ db.bookmark_text, r.text ≠ none)
    (hbks : (db.bookmarks.map (fun b => b.bookmark_id)).Nodup)
    (h : goGetText tz fetch ((unpopulated_bookmarks db).take N)
      db.bookmark_text 0 = .ok (bt2, c2)) :
    bt2 = db.bookmark_text ++
      ((unpopulated_bookmarks db).take N).map (mkRow fetch) ∧
    (∀ b ∈ (unpopulated_bookmarks db).take N,
      ∃ r ∈ bt2, r.bookmark_id = b.bookmark_id) ∧
    c2 = ((unpopulated_bookmarks db).take N).length ∧
    unpopulated_bookmarks ⟨db.bookmarks, bt2⟩ =
      (unpopulated_bookmarks db).drop N := by
  obtain ⟨hbt2, hc2, h3, _⟩ := goGetText_ok tz fetch _ _ _ _ _ h
  have hnn2 : ∀ r ∈ bt2, r.text ≠ none := by
    intro r hr
    rw [hbt2] at hr
    rcases List.mem_append.mp hr with hold | hnew
    · exact hnn r hold
    · obtain ⟨b1, _, hb1⟩ := List.mem_map.mp hnew
      rw [← hb1]
      exact mkRow_text fetch b1
  refine ⟨hbt2, ?_, by omega, ?_⟩
  · intro b hb
    refine ⟨mkRow fetch b, ?_, mkRow_id fetch b⟩
    rw [hbt2]
    exact List.mem_append_right _ (List.mem_map_of_mem _ hb)
  · rw [unpopulated_eq_filter hnn2]
    have hpt : ∀ b ∈ db.bookmarks,
        (!hasId (⟨db.bookmarks, bt2⟩ : TextDB).bookmark_text b.bookmark_id) =
          ((!hasId db.bookmark_text b.bookmark_id) &&
            (!((unpopulated_bookmarks db).take N).any
              (fun a => a.bookmark_id == b.bookmark_id))) := by
      intro b _
      show (!hasId bt2 b.bookmark_id) = _
      rw [hbt2, hasId_append, hasId_map_mkRow, Bool.not_or]
    rw [List.filter_congr hpt]
    have hsplit : db.bookmarks.filter
        (fun b => (!hasId db.bookmark_text b.bookmark_id) &&
          (!((unpopulated_bookmarks db).take N).any
            (fun a => a.bookmark_id == b.bookmark_id))) =
        (db.bookmarks.filter (fun b => !hasId db.bookmark_text b.bookmark_id)).filter
          (fun b => !((unpopulated_bookmarks db).take N).any
            (fun a => a.bookmark_id == b.bookmark_id)) := by
      rw [List.filter_filter]
      apply List.filter_congr
      intro b _
      rw [Bool.and_comm]
    rw [hsplit, ← unpopulated_eq_filter hnn]
    have hws_nodup : ((unpopulated_bookmarks db).map
        (fun b => b.bookmark_id)).Nodup := by
      rw [unpopulated_eq_filter hnn]
      exact List.Nodup.sublist (List.Sublist.map _ (List.filter_sublist _)) hbks
    calc (unpopulated_bookmarks db).filter
          (fun b => !((unpopulated_bookmarks db).take N).any
            (fun a => a.bookmark_id == b.bookmark_id))
        = (((unpopulated_bookmarks db).take N) ++
            ((unpopulated_bookmarks db).drop N)).filter
            (fun b => !((unpopulated_bookmarks db).take N).any
              (fun a => a.bookmark_id == b.bookmark_id)) := by
          rw [List.take_append_drop]
      _ = (unpopulated_bookmarks db).drop N := by
          apply filter_not_front_ids
          rw [List.take_append_drop]
          exact hws_nodup

/-- Witness for C5: two working-set bookmarks, run stopped after the
first; the second run's working set is exactly the second bookmark. -/
theorem C5_progress_preserved_witness :
    goGetText 0 (fun _ => some "w")
      ((unpopulated_bookmarks
        ⟨[⟨1, "a", "2021-03-04T10:15:30", "2021-03-04T10:15:30"⟩,
          ⟨2, "b", "2021-03-04T10:15:30", "2021-03-04T10:15:30"⟩], []⟩).take 1)
      [] 0 = .ok ([⟨1, some "w", false⟩], 1) ∧
    unpopulated_bookmarks
      ⟨[⟨1, "a", "2021-03-04T10:15:30", "2021-03-04T10:15:30"⟩,
        ⟨2, "b", "2021-03-04T10:15:30", "2021-03-04T10:15:30"⟩],
       [⟨1, some "w", false⟩]⟩ =
      (unpopulated_bookmarks
        ⟨[⟨1, "a", "2021-03-04T10:15:30", "2021-03-04T10:15:30"⟩,
          ⟨2, "b", "2021-03-04T10:15:30", "2021-03-04T10:15:30"⟩], []⟩).drop 1 :=
  ⟨rfl,
    (@C5_progress_preserved 0 (fun _ => some "w")
      ⟨[⟨1, "a", "2021-03-04T10:15:30", "2021-03-04T10:15:30"⟩,
        ⟨2, "b", "2021-03-04T10:15:30", "2021-03-04T10:15:30"⟩], []⟩
      1 [⟨1, some "w", false⟩] 1
      (by decide) (by decide) rfl).2.2.2⟩

/-! ## The `bookmarks` sync command

`bookmarks` projects each remote entry onto the fixed key list
`BOOKMARK_KEYS` (a dict comprehension over `getattr`), tags every
record with the requested folder (`b.update({"folder": folder})`), and
calls `db["bookmarks"].upsert_all(bookmarks, pk="bookmark_id",
alter=True)`.  Records are embedded as association lists from column
names to SQLite values; a missing key is a `NULL` column.  A remote
entry is an attribute valuation `String → Val`.  `upsert_all` updates
the columns present in the record for an existing row with the same
primary key (keeping its other columns) and appends a fresh row
otherwise; `alter=True` means new columns are admitted rather than
rejected. -/

/-- A SQLite value. -/
inductive Val where
  | vnull
  | vint (i : Int)
  | vreal (num den : Int)
  | vstr (s : String)
  | vbool (b : Bool)
deriving DecidableEq

/-- A table row or record: an association list from column names to
values, first binding wins. -/
abbrev Record := List (String × Val)

/-- Value of a column in a record, `none` when the column is absent. -/
def rlookup (k : String) (r : Record) : Option Val :=
  (r.find? (fun p => p.1 == k)).map (fun p => p.2)

/-- The fixed projection keys of `cli.py` (the `"folder"` entry is
commented out in the source and added by `b.update` instead). -/
def BOOKMARK_KEYS : List String :=
  ["bookmark_id", "title", "description", "hash", "url",
   "progress_timestamp", "time", "progress", "starred", "type",
   "private_source"]

/-- The dict comprehension
`{key: getattr(entry, key) for key in BOOKMARK_KEYS}`. -/
def projectBookmark (e : String → Val) : Record :=
  BOOKMARK_KEYS.map (fun k => (k, e k))

/-- Python `dict.update` with a single key: overwrite in place if the
key exists, append otherwise. -/
def dictUpdate (r : Record) (k : String) (v : Val) : Record :=
  if r.any (fun p => p.1 == k) then
    r.map (fun p => if p.1 == k then (k, v) else p)
  else r ++ [(k, v)]

/-- Primary-key value of a record (`pk="bookmark_id"`). -/
def rowPk (r : Record) : Option Val := rlookup "bookmark_id" r

/-- Effect of the upsert `UPDATE` on the matched row: the record's
columns take the record's values, all other columns keep the row's
values (with `alter=True`, columns new to the table are added). -/
def mergeRow (row upd : Record) : Record :=
  upd ++ row.filter (fun p => !upd.any (fun q => q.1 == p.1))

/-- Upsert of one record keyed on `bookmark_id`: update the rows whose
primary key equals the record's, append the record otherwise. -/
def upsertOne (table : List Record) (upd : Record) : List Record :=
  if table.any (fun row => decide (rowPk row = rowPk upd)) then
    table.map (fun row => if rowPk row = rowPk upd then mergeRow row upd else row)
  else table ++ [upd]

/-- The `upsert_all(..., pk="bookmark_id", alter=True)` call: upsert
the records in order. -/
def upsert_all (table : List Record) (recs : List Record) : List Record :=
  recs.foldl upsertOne table

/-- The remote `instapaper.get_bookmarks(folder, limit=500)` call: the
service returns at most `limit` bookmarks of the folder listing. -/
def get_bookmarks (listing : List (String → Val)) (limit : Nat) :
    List (String → Val) :=
  listing.take limit

/-- The records the `bookmarks` command builds before upserting:
projection onto `BOOKMARK_KEYS`, then the folder tag. -/
def syncRecords (folder : String) (listing : List (String → Val)) :
    List Record :=
  ((get_bookmarks listing 500).map projectBookmark).map
    (fun b => dictUpdate b "folder" (Val.vstr folder))

/-- The `bookmarks` command after the credential check and login. -/
def bookmarks (folder : String) (listing : List (String → Val))
    (table : List Record) : List Record :=
  upsert_all table (syncRecords folder listing)

/-- Primary-key uniqueness of the `bookmarks` table. -/
def PkUniqueR (table : List Record) : Prop :=
  List.Pairwise (fun a b => rowPk a ≠ rowPk b) table

/-! ## Lemmas about records and the upsert -/

theorem rlookup_cons_of_pos {k : String} {p : String × Val} (t : Record)
    (h : (p.1 == k) = true) : rlookup k (p :: t) = some p.2 := by
  unfold rlookup
  rw [List.find?_cons_of_pos (p := fun q => q.1 == k) t h]
  rfl

theorem rlookup_cons_of_neg {k : String} {p : String × Val} (t : Record)
    (h : ¬(p.1 == k) = true) : rlookup k (p :: t) = rlookup k t := by
  unfold rlookup
  rw [List.find?_cons_of_neg (p := fun q => q.1 == k) t h]

theorem rlookup_append (k : String) (r1 r2 : Record) :
    rlookup k (r1 ++ r2) = (rlookup k r1).or (rlookup k r2) := by
  induction r1 with
  | nil => simp [rlookup]
  | cons p t ih =>
    rw [List.cons_append]
    by_cases hp : (p.1 == k) = true
    · rw [rlookup_cons_of_pos _ hp, rlookup_cons_of_pos _ hp]
      rfl
    · rw [rlookup_cons_of_neg _ hp, rlookup_cons_of_neg _ hp]
      exact ih

theorem rlookup_eq_none_iff {k : String} {r : Record} :
    rlookup k r = none ↔ r.any (fun p => p.1 == k) = false := by
  unfold rlookup
  rw [Option.map_eq_none', List.find?_eq_none, List.any_eq_false]

theorem rlookup_mergeRow (k : String) (row upd : Record) :
    rlookup k (mergeRow row upd) = (rlookup k upd).or (rlookup k row) := by
  unfold mergeRow
  rw [rlookup_append]
  cases hu : rlookup k upd with
  | some v => rfl
  | none =>
    have hk : upd.any (fun q => q.1 == k) = false := rlookup_eq_none_iff.mp hu
    show Option.or none _ = Option.or none _
    rw [Option.none_or, Option.none_or]
    induction row with
    | nil => rfl
    | cons p t ih =>
      rw [List.filter_cons]
      by_cases hp : (p.1 == k) = true
      · have hpk : p.1 = k := by simpa using hp
        have hcond : (!upd.any (fun q => q.1 == p.1)) = true := by
          rw [hpk, hk]
          rfl
        rw [if_pos hcond, rlookup_cons_of_pos _ hp, rlookup_cons_of_pos _ hp]
      · by_cases hc : (!upd.any (fun q => q.1 == p.1)) = true
        · rw [if_pos hc, rlookup_cons_of_neg _ hp, rlookup_cons_of_neg _ hp]
          exact ih
        · rw [if_neg hc, rlookup_cons_of_neg _ hp]
          exact ih

theorem rowPk_mergeRow (row upd : Record) :
    rowPk (mergeRow row upd) = (rowPk upd).or (rowPk row) :=
  rlookup_mergeRow _ _ _

theorem upsertOne_map_pk (upd row : Record) :
    rowPk (if rowPk row = rowPk upd then mergeRow row upd else row) =
      rowPk row := by
  by_cases h : rowPk row = rowPk upd
  · rw [if_pos h, rowPk_mergeRow, ← h]
    cases rowPk row <;> rfl
  · rw [if_neg h]

theorem upsertOne_pkUnique {table : List Record} {upd : Record}
    (h : PkUniqueR table) : PkUniqueR (upsertOne table upd) := by
  unfold upsertOne
  split
  · exact List.Pairwise.map _
      (fun a b hab => by rw [upsertOne_map_pk, upsertOne_map_pk]; exact hab) h
  · rename_i hany
    unfold PkUniqueR at h ⊢
    rw [List.pairwise_append]
    refine ⟨h, List.pairwise_singleton _ _, ?_⟩
    intro a ha b hb
    rw [List.mem_singleton] at hb
    subst hb
    intro he
    exact hany (List.any_eq_true.mpr ⟨a, ha, decide_eq_true he⟩)

theorem upsertOne_mem_other {table : List Record} {upd row : Record}
    (hne : rowPk row ≠ rowPk upd) (hm : row ∈ table) :
    row ∈ upsertOne table upd := by
  unfold upsertOne
  split
  · exact List.mem_map.mpr ⟨row, hm, by rw [if_neg hne]⟩
  · exact List.mem_append_left _ hm

theorem upsertOne_hit {table : List Record} {upd : Record} {v : Val}
    (hpk : rowPk upd = some v) :
    ∃ row2 ∈ upsertOne table upd, rowPk row2 = some v ∧
      ∀ k, rlookup k upd ≠ none → rlookup k row2 = rlookup k upd := by
  unfold upsertOne
  split
  · rename_i hany
    obtain ⟨row0, hm0, he0⟩ := List.any_eq_true.mp hany
    rw [decide_eq_true_eq] at he0
    refine ⟨mergeRow row0 upd,
      List.mem_map.mpr ⟨row0, hm0, by rw [if_pos he0]⟩, ?_, ?_⟩
    · rw [rowPk_mergeRow, hpk]
      rfl
    · intro k hk
      rw [rlookup_mergeRow]
      cases hu : rlookup k upd with
      | none => exact absurd hu hk
      | some w => rfl
  · exact ⟨upd, List.mem_append_right _ (by simp), hpk, fun k _ => rfl⟩

theorem upsert_all_cons (table : List Record) (u : Record)
    (rest : List Record) :
    upsert_all table (u :: rest) = upsert_all (upsertOne table u) rest := rfl

theorem upsert_all_append (table : List Record) (r1 r2 : List Record) :
    upsert_all table (r1 ++ r2) = upsert_all (upsert_all table r1) r2 :=
  List.foldl_append _ _ _ _

theorem upsert_all_pkUnique :
    ∀ (recs table : List Record), PkUniqueR table →
      PkUniqueR (upsert_all table recs) := by
  intro recs
  induction recs with
  | nil => exact fun table h => h
  | cons u rest ih =>
    intro table h
    rw [upsert_all_cons]
    exact ih _ (upsertOne_pkUnique h)

theorem upsertOne_pk_preserved (table : List Record) (upd row : Record)
    (hm : row ∈ table) :
    ∃ row2 ∈ upsertOne table upd, rowPk row2 = rowPk row := by
  unfold upsertOne
  split
  · exact ⟨_, List.mem_map.mpr ⟨row, hm, rfl⟩, upsertOne_map_pk upd row⟩
  · exact ⟨row, List.mem_append_left _ hm, rfl⟩

theorem upsert_all_pk_preserved :
    ∀ (recs table : List Record) (row : Record), row ∈ table →
      ∃ row2 ∈ upsert_all table recs, rowPk row2 = rowPk row := by
  intro recs
  induction recs with
  | nil => exact fun table row hm => ⟨row, hm, rfl⟩
  | cons u rest ih =>
    intro table row hm
    obtain ⟨row2, hm2, he2⟩ := upsertOne_pk_preserved table u row hm
    obtain ⟨row3, hm3, he3⟩ := ih (upsertOne table u) row2 hm2
    exact ⟨row3, hm3, he3.trans he2⟩

theorem upsert_all_hold {v : Val} {upd : Record} :
    ∀ (recs table : List Record),
    (∀ u ∈ recs, rowPk u = some v → u = upd) →
    rowPk upd = some v →
    (∃ row2 ∈ table, rowPk row2 = some v ∧
      ∀ k, rlookup k upd ≠ none → rlookup k row2 = rlookup k upd) →
    ∃ row2 ∈ upsert_all table recs, rowPk row2 = some v ∧
      ∀ k, rlookup k upd ≠ none → rlookup k row2 = rlookup k upd := by
  intro recs
  induction recs with
  | nil => exact fun table _ _ hex => hex
  | cons u rest ih =>
    intro table hall hpk hex
    rw [upsert_all_cons]
    apply ih _ (fun x hx => hall x (List.mem_cons_of_mem _ hx)) hpk
    by_cases hu : rowPk u = some v
    · obtain rfl := hall u (List.mem_cons_self _ _) hu
      exact upsertOne_hit hpk
    · obtain ⟨row2, hm2, hpk2, hlk2⟩ := hex
      exact ⟨row2,
        upsertOne_mem_other (fun he => hu (he ▸ hpk2)) hm2, hpk2, hlk2⟩

theorem pkUnique_count_one :
    ∀ (table : List Record) (row : Record) (v : Val),
    PkUniqueR table → row ∈ table → rowPk row = some v →
    (table.filter (fun r => decide (rowPk r = some v))).length = 1 := by
  intro table
  induction table with
  | nil => intro row v _ hm _; cases hm
  | cons a rest ih =>
    intro row v h hm hpk
    unfold PkUniqueR at h
    rw [List.pairwise_cons] at h
    rw [List.filter_cons]
    by_cases ha : rowPk a = some v
    · rw [if_pos (decide_eq_true ha)]
      have hrest : rest.filter (fun r => decide (rowPk r = some v)) = [] := by
        rw [List.filter_eq_nil_iff]
        intro b hb
        rw [decide_eq_true_eq]
        intro hbv
        exact h.1 b hb (ha.trans hbv.symm)
      rw [hrest]
      rfl
    · rw [if_neg (by simpa using ha)]
      rcases List.mem_cons.mp hm with rfl | hmr
      · exact absurd hpk ha
      · exact ih row v h.2 hmr hpk

theorem pkUnique_mem_eq :
    ∀ (table : List Record) (r1 r2 : Record) (v : Val),
    PkUniqueR table → r1 ∈ table → r2 ∈ table →
    rowPk r1 = some v → rowPk r2 = some v → r1 = r2 := by
  intro table
  induction table with
  | nil => intro r1 r2 v _ hm _ _ _; cases hm
  | cons a rest ih =>
    intro r1 r2 v h hm1 hm2 hpk1 hpk2
    unfold PkUniqueR at h
    rw [List.pairwise_cons] at h
    rcases List.mem_cons.mp hm1 with rfl | hr1
    · rcases List.mem_cons.mp hm2 with rfl | hr2
      · rfl
      · exact absurd (hpk1.trans hpk2.symm) (h.1 r2 hr2)
    · rcases List.mem_cons.mp hm2 with rfl | hr2
      · exact absurd (hpk2.trans hpk1.symm) (h.1 r1 hr1)
      · exact ih r1 r2 v h.2 hr1 hr2 hpk1 hpk2

theorem projectBookmark_no_folder (e : String → Val) :
    ((projectBookmark e).any (fun p => p.1 == "folder")) = false := rfl

/-- Resolving the `b.update({"folder": folder})` call: `"folder"` is
not among the projection keys, so the update appends the binding. -/
theorem syncRecords_eq (folder : String) (listing : List (String → Val)) :
    syncRecords folder listing =
      (get_bookmarks listing 500).map
        (fun e => projectBookmark e ++ [("folder", Val.vstr folder)]) := by
  unfold syncRecords
  rw [List.map_map]
  have hpt : ∀ e : String → Val,
      dictUpdate (projectBookmark e) "folder" (Val.vstr folder) =
        projectBookmark e ++ [("folder", Val.vstr folder)] := by
    intro e
    unfold dictUpdate
    rw [projectBookmark_no_folder]
    rfl
  exact congrArg (fun f => List.map f (get_bookmarks listing 500))
    (funext hpt)

theorem rowPk_syncRecord (e : String → Val) (folder : String) :
    rowPk (projectBookmark e ++ [("folder", Val.vstr folder)]) =
      some (e "bookmark_id") := rfl

theorem rlookup_syncRecord_keys (e : String → Val) (folder : String) :
    ∀ k ∈ BOOKMARK_KEYS,
      rlookup k (projectBookmark e ++ [("folder", Val.vstr folder)]) =
        some (e k) := by
  intro k hk
  fin_cases hk <;> rfl

theorem rlookup_syncRecord_folder (e : String → Val) (folder : String) :
    rlookup "folder" (projectBookmark e ++ [("folder", Val.vstr folder)]) =
      some (Val.vstr folder) := rfl

theorem syncRecord_keys (e : String → Val) (folder : String) :
    (projectBookmark e ++ [("folder", Val.vstr folder)]).map Prod.fst =
      BOOKMARK_KEYS ++ ["folder"] := by
  rw [List.map_append]
  unfold projectBookmark
  rw [List.map_map]
  rfl

/-- C7: syncing a folder twice, where the second remote listing
carries an updated value for the bookmark with primary-key value `v`
(its unique carrier in the processed listing being the entry `e`),
leaves exactly one row for that `bookmark_id` in the `bookmarks`
table, and that row holds the second listing's values for every
projected column and the folder tag; the upsert never produces
duplicate rows (primary keys stay pairwise distinct) and never deletes
rows (every primary key present before is present after). -/
theorem C7_upsert_no_duplicates (folder : String)
    (L1 L2 : List (String → Val)) (t0 : List Record)
    (e : String → Val) (v : Val)
    (h0 : PkUniqueR t0)
    (he : e ∈ get_bookmarks L2 500)
    (hv : e "bookmark_id" = v)
    (hu : ∀ e2 ∈ get_bookmarks L2 500, e2 "bookmark_id" = v → e2 = e) :
    PkUniqueR (bookmarks folder L2 (bookmarks folder L1 t0)) ∧
    ((bookmarks folder L2 (bookmarks folder L1 t0)).filter
        (fun r => decide (rowPk r = some v))).length = 1 ∧
    (∀ row ∈ bookmarks folder L2 (bookmarks folder L1 t0),
      rowPk row = some v →
        (∀ k ∈ BOOKMARK_KEYS, rlookup k row = some (e k)) ∧
        rlookup "folder" row = some (Val.vstr folder)) ∧
    (∀ row ∈ bookmarks folder L1 t0,
      ∃ row2 ∈ bookmarks folder L2 (bookmarks folder L1 t0),
        rowPk row2 = rowPk row) := by
  have h1 : PkUniqueR (bookmarks folder L1 t0) :=
    upsert_all_pkUnique _ _ h0
  have h2 : PkUniqueR (bookmarks folder L2 (bookmarks folder L1 t0)) :=
    upsert_all_pkUnique _ _ h1
  have hpk : rowPk (projectBookmark e ++ [("folder", Val.vstr folder)]) =
      some v := by
    rw [rowPk_syncRecord]
    exact congrArg some hv
  obtain ⟨a1, a2, hsplit⟩ := List.append_of_mem he
  have hrecs : syncRecords folder L2 =
      a1.map (fun e2 => projectBookmark e2 ++ [("folder", Val.vstr folder)]) ++
      (projectBookmark e ++ [("folder", Val.vstr folder)]) ::
      a2.map (fun e2 => projectBookmark e2 ++ [("folder", Val.vstr folder)]) := by
    rw [syncRecords_eq, hsplit, List.map_append, List.map_cons]
  have hmain : ∃ row2 ∈ bookmarks folder L2 (bookmarks folder L1 t0),
      rowPk row2 = some v ∧
      ∀ k, rlookup k (projectBookmark e ++ [("folder", Val.vstr folder)]) ≠ none →
        rlookup k row2 =
          rlookup k (projectBookmark e ++ [("folder", Val.vstr folder)]) := by
    show ∃ row2 ∈ upsert_all (bookmarks folder L1 t0) (syncRecords folder L2), _
    rw [hrecs, upsert_all_append, upsert_all_cons]
    apply upsert_all_hold
    · intro u hu2 hupk
      obtain ⟨e2, he2, he2e⟩ := List.mem_map.mp hu2
      have he2m : e2 ∈ get_bookmarks L2 500 := by
        rw [hsplit]
        exact List.mem_append_right _ (List.mem_cons_of_mem _ he2)
      have : e2 "bookmark_id" = v := by
        rw [← he2e] at hupk
        rw [rowPk_syncRecord] at hupk
        exact Option.some.inj hupk
      rw [← he2e, hu e2 he2m this]
    · exact hpk
    · exact upsertOne_hit hpk
  obtain ⟨row2, hm2, hpk2, hlk2⟩ := hmain
  refine ⟨h2, ?_, ?_, ?_⟩
  · exact pkUnique_count_one _ row2 v h2 hm2 hpk2
  · intro row hm hpk3
    obtain rfl := pkUnique_mem_eq _ row row2 v h2 hm hm2 hpk3 hpk2
    constructor
    · intro k hk
      rw [hlk2 k (by rw [rlookup_syncRecord_keys e folder k hk]; simp),
        rlookup_syncRecord_keys e folder k hk]
    · rw [hlk2 "folder" (by rw [rlookup_syncRecord_folder]; simp),
        rlookup_syncRecord_folder]
  · intro row hm
    exact upsert_all_pk_preserved _ _ row hm

/-- C9: the sync requests at most the single-page limit of 500
bookmarks from the remote client; each returned entry is projected
onto the fixed local field set `BOOKMARK_KEYS`, every built record
carries the requested folder name in its `folder` field (and exactly
the projected columns plus `folder`), and the command upserts exactly
these records keyed on `bookmark_id`. -/
theorem C9_sync_projection (folder : String)
    (listing : List (String → Val)) (table : List Record) :
    syncRecords folder listing =
      (get_bookmarks listing 500).map
        (fun e => projectBookmark e ++ [("folder", Val.vstr folder)]) ∧
    (syncRecords folder listing).length ≤ 500 ∧
    (∀ r2 ∈ syncRecords folder listing,
      r2.map Prod.fst = BOOKMARK_KEYS ++ ["folder"] ∧
      rlookup "folder" r2 = some (Val.vstr folder)) ∧
    (∀ r2 ∈ syncRecords folder listing, ∀ k ∈ BOOKMARK_KEYS,
      ∃ e2 ∈ get_bookmarks listing 500, rlookup k r2 = some (e2 k)) ∧
    bookmarks folder listing table =
      upsert_all table (syncRecords folder listing) := by
  refine ⟨syncRecords_eq folder listing, ?_, ?_, ?_, rfl⟩
  · rw [syncRecords_eq, List.length_map]
    unfold get_bookmarks
    exact List.length_take_le 500 listing
  · intro r2 hr2
    rw [syncRecords_eq] at hr2
    obtain ⟨e2, _, he2⟩ := List.mem_map.mp hr2
    rw [← he2]
    exact ⟨syncRecord_keys e2 folder, rlookup_syncRecord_folder e2 folder⟩
  · intro r2 hr2 k hk
    rw [syncRecords_eq] at hr2
    obtain ⟨e2, he2m, he2⟩ := List.mem_map.mp hr2
    rw [← he2]
    exact ⟨e2, he2m, rlookup_syncRecord_keys e2 folder k hk⟩

/-- Witness for C7: two one-entry listings for the same bookmark id 1
whose `title` changes from "old" to "new" between the two syncs. -/
theorem C7_upsert_no_duplicates_witness :
    ((fun k : String => if k == "bookmark_id" then Val.vint 1
        else if k == "title" then Val.vstr "new" else Val.vnull) ∈
      get_bookmarks
        [fun k : String => if k == "bookmark_id" then Val.vint 1
          else if k == "title" then Val.vstr "new" else Val.vnull] 500) ∧
    ((bookmarks "archive"
        [fun k : String => if k == "bookmark_id" then Val.vint 1
          else if k == "title" then Val.vstr "new" else Val.vnull]
        (bookmarks "archive"
          [fun k : String => if k == "bookmark_id" then Val.vint 1
            else if k == "title" then Val.vstr "old" else Val.vnull]
          [])).filter
      (fun r => decide (rowPk r = some (Val.vint 1)))).length = 1 :=
  ⟨List.mem_singleton_self _,
    (C7_upsert_no_duplicates "archive"
      [fun k : String => if k == "bookmark_id" then Val.vint 1
        else if k == "title" then Val.vstr "old" else Val.vnull]
      [fun k : String => if k == "bookmark_id" then Val.vint 1
        else if k == "title" then Val.vstr "new" else Val.vnull]
      []
      (fun k : String => if k == "bookmark_id" then Val.vint 1
        else if k == "title" then Val.vstr "new" else Val.vnull)
      (Val.vint 1)
      List.Pairwise.nil
      (List.mem_singleton_self _)
      rfl
      (fun _ he2 _ => List.mem_singleton.mp he2)).2.1⟩

/-! ## Credential loading

Both `bookmarks` and `get_text` start with
`try: data = json.load(open(auth)); ... four subscripts ...
except (KeyError, FileNotFoundError): utils.error(...)`.
The credentials file is embedded as one of three shapes: absent
(`open` raises `FileNotFoundError`), present but not valid JSON
(`json.load` raises `json.JSONDecodeError`, a subclass of
`ValueError`), or a parsed JSON object.  Only `KeyError` and
`FileNotFoundError` are in the handled tuple; a `JSONDecodeError`
escapes the command uncaught. -/

/-- Shape of the credentials file. -/
inductive CredSource where
  | missing
  | invalidJson
  | parsed (d : List (String × String))
deriving DecidableEq

/-- The exceptions the credential prologue can raise. -/
inductive PyExn where
  | fileNotFound
  | jsonDecodeError
  | keyError (k : String)
deriving DecidableEq

/-- How a command terminates early: a user-facing fatal message, or an
uncaught exception traceback. -/
inductive CmdAbort where
  | authError (msg : String)
  | uncaught (exn : String)
deriving DecidableEq

/-- The four credential values read from the file. -/
structure Credentials where
  consumer_id : String
  consumer_secret : String
  login : String
  password : String
deriving DecidableEq

/-- The message passed to `utils.error` in `cli.py`. -/
def authErrorMsg : String :=
  "Cannot find authentication data, please run `instapaper-to-sqlite auth`!"

/-- Modelled from the spec: `utils.error` lives in the `utils` module,
which is not among the sources; per the spec, a missing credentials
file or missing key "is a fatal, user-reported error", and "every
downstream command must stop immediately with a clear instruction to
run the auth step" — so `utils.error` terminates the command with the
user-facing message. -/
def utils_error (msg : String) : CmdAbort := .authError msg

/-- `json.load(open(auth))`. -/
def jsonLoad : CredSource → Except PyExn (List (String × String))
  | .missing => .error .fileNotFound
  | .invalidJson => .error .jsonDecodeError
  | .parsed d => .ok d

/-- A dictionary subscript `data[k]`: raises `KeyError` when absent. -/
def getKey (d : List (String × String)) (k : String) : Except PyExn String :=
  match d.find? (fun p => p.1 == k) with
  | some p => .ok p.2
  | none => .error (.keyError k)

/-- Body of the `try` block: load the JSON, then read the four keys in
source order; the first failure raises. -/
def readCredsBody (src : CredSource) : Except PyExn Credentials :=
  match jsonLoad src with
  | .error ex => .error ex
  | .ok data =>
    match getKey data "instapaper_consumer_id" with
    | .error ex => .error ex
    | .ok cid =>
      match getKey data "instapaper_consumer_secret" with
      | .error ex => .error ex
      | .ok csec =>
        match getKey data "instapaper_email" with
        | .error ex => .error ex
        | .ok lg =>
          match getKey data "instapaper_password" with
          | .error ex => .error ex
          | .ok pw => .ok ⟨cid, csec, lg, pw⟩

/-- The `try`/`except (KeyError, FileNotFoundError)` prologue:
`FileNotFoundError` and `KeyError` are routed to `utils.error`, while
a `JSONDecodeError` is not in the handled tuple and escapes. -/
def loadCredentials (src : CredSource) : Except CmdAbort Credentials :=
  match readCredsBody src with
  | .ok c => .ok c
  | .error .fileNotFound => .error (utils_error authErrorMsg)
  | .error (.keyError _) => .error (utils_error authErrorMsg)
  | .error .jsonDecodeError => .error (.uncaught "json.decoder.JSONDecodeError")

/-- The `bookmarks` command: the credential prologue, then the remote
phase (login and listing — counted as 2 remote calls) and the upsert. -/
def bookmarksCmd (src : CredSource) (folder : String)
    (listing : List (String → Val)) (table : List Record) :
    Except CmdAbort (List Record) × Nat :=
  match loadCredentials src with
  | .error a => (.error a, 0)
  | .ok _ => (.ok (bookmarks folder listing table), 2)

/-- The `get_text` command: the credential prologue, then login (one
remote call) and the backfill loop (one remote call per fetch); loop
exceptions escape the command uncaught. -/
def getTextCmd (src : CredSource) (tz : Int) (fetch : Int → Option String)
    (db : TextDB) : Except CmdAbort TextDB × Nat :=
  match loadCredentials src with
  | .error a => (.error a, 0)
  | .ok _ =>
    match get_text tz fetch db with
    | .ok (db1, n) => (.ok db1, 1 + n)
    | .error (.valueError _, n) => (.error (.uncaught "ValueError"), 1 + n)
    | .error (.integrityError _, n) =>
      (.error (.uncaught "sqlite3.IntegrityError"), 1 + n)

theorem getKey_error_shape {d : List (String × String)} {k : String}
    {ex : PyExn} (h : getKey d k = .error ex) : ex = .keyError k := by
  unfold getKey at h
  cases hf : d.find? (fun p => p.1 == k) with
  | some p => rw [hf] at h; cases h
  | none =>
    rw [hf] at h
    cases h
    rfl

theorem readCredsBody_parsed_shape (d : List (String × String)) :
    (∃ c, readCredsBody (.parsed d) = .ok c) ∨
    (∃ k, readCredsBody (.parsed d) = .error (.keyError k)) := by
  cases h1 : getKey d "instapaper_consumer_id" with
  | error ex =>
    obtain rfl := getKey_error_shape h1
    exact Or.inr ⟨"instapaper_consumer_id",
      by simp only [readCredsBody, jsonLoad, h1]⟩
  | ok cid =>
  cases h2 : getKey d "instapaper_consumer_secret" with
  | error ex =>
    obtain rfl := getKey_error_shape h2
    exact Or.inr ⟨"instapaper_consumer_secret",
      by simp only [readCredsBody, jsonLoad, h1, h2]⟩
  | ok csec =>
  cases h3 : getKey d "instapaper_email" with
  | error ex =>
    obtain rfl := getKey_error_shape h3
    exact Or.inr ⟨"instapaper_email",
      by simp only [readCredsBody, jsonLoad, h1, h2, h3]⟩
  | ok lg =>
  cases h4 : getKey d "instapaper_password" with
  | error ex =>
    obtain rfl := getKey_error_shape h4
    exact Or.inr ⟨"instapaper_password",
      by simp only [readCredsBody, jsonLoad, h1, h2, h3, h4]⟩
  | ok pw =>
    exact Or.inl ⟨⟨cid, csec, lg, pw⟩,
      by simp only [readCredsBody, jsonLoad, h1, h2, h3, h4]⟩

theorem loadCredentials_missing :
    loadCredentials .missing = .error (.authError authErrorMsg) := rfl

theorem loadCredentials_invalidJson :
    loadCredentials .invalidJson =
      .error (.uncaught "json.decoder.JSONDecodeError") := rfl

theorem loadCredentials_parsed_error {d : List (String × String)}
    {a : CmdAbort} (h : loadCredentials (.parsed d) = .error a) :
    a = .authError authErrorMsg := by
  unfold loadCredentials at h
  rcases readCredsBody_parsed_shape d with ⟨c, hc⟩ | ⟨k, hk⟩
  · rw [hc] at h
    cases h
  · rw [hk] at h
    cases h
    rfl

/-- C8 counterexample: a credentials file that exists but is not valid
JSON aborts the `bookmarks` command before any remote call, but
through an uncaught `json.JSONDecodeError` — `json.load` raises before
the subscripts, and `JSONDecodeError` is not in the
`(KeyError, FileNotFoundError)` handler tuple — so no user-facing
message instructing the user to run `auth` is produced, contradicting
the claim for that case. -/
theorem C8_counterexample :
    bookmarksCmd .invalidJson "archive" [] [] =
      (.error (.uncaught "json.decoder.JSONDecodeError"), 0) ∧
    ∀ msg : String,
      CmdAbort.uncaught "json.decoder.JSONDecodeError" ≠ .authError msg :=
  ⟨rfl, fun _ h => CmdAbort.noConfusion h⟩

/-- C8 (amended): whenever the credential prologue fails, both
commands abort before any remote call (zero remote calls are made);
for a missing file or a parsed file lacking one of the four required
keys the abort is the user-facing `utils.error` message instructing
the user to run `auth`, while for an unparseable-JSON file the abort
is an uncaught `JSONDecodeError` without that instruction. -/
theorem C8_credentials_guard (src : CredSource) (a : CmdAbort)
    (folder : String) (listing : List (String → Val)) (table : List Record)
    (tz : Int) (fetch : Int → Option String) (db : TextDB)
    (h : loadCredentials src = .error a) :
    bookmarksCmd src folder listing table = (.error a, 0) ∧
    getTextCmd src tz fetch db = (.error a, 0) ∧
    (src = .missing → a = .authError authErrorMsg) ∧
    (∀ d, src = .parsed d → a = .authError authErrorMsg) ∧
    (src = .invalidJson →
      a = .uncaught "json.decoder.JSONDecodeError") := by
  refine ⟨?_, ?_, ?_, ?_, ?_⟩
  · unfold bookmarksCmd
    rw [h]
  · unfold getTextCmd
    rw [h]
  · intro hs
    subst hs
    rw [loadCredentials_missing] at h
    cases h
    rfl
  · intro d hs
    subst hs
    exact loadCredentials_parsed_error h
  · intro hs
    subst hs
    rw [loadCredentials_invalidJson] at h
    cases h
    rfl

/-- Witness for C8 (amended): the missing-file case. -/
theorem C8_credentials_guard_witness :
    loadCredentials .missing = .error (.authError authErrorMsg) ∧
    bookmarksCmd .missing "archive" [] [] =
      (.error (.authError authErrorMsg), 0) ∧
    getTextCmd .missing 0 (fun _ => none) ⟨[], []⟩ =
      (.error (.authError authErrorMsg), 0) :=
  ⟨rfl,
    (C8_credentials_guard .missing (.authError authErrorMsg) "archive" [] []
      0 (fun _ => none) ⟨[], []⟩ rfl).1,
    (C8_credentials_guard .missing (.authError authErrorMsg) "archive" [] []
      0 (fun _ => none) ⟨[], []⟩ rfl).2.1⟩

end InstapaperToSqlite
